import Mathlib

/-!
Verification of the zwave-lock repository against its specification.

The development shallowly embeds the logic of `src/code-storage.ts`,
`src/commands.ts` and `src/driver.ts`.  External collaborators (the zwave-js
driver, the node:crypto cipher core, the filesystem) are modelled as explicit
oracle parameters, so every repository function becomes a pure Lean function
of its inputs and of the responses the external world would give it.
-/

/- ===== Secure Code Store, crypto layer (src/code-storage.ts) ===== -/

def IV_LENGTH : Nat := 16
def AUTH_TAG_LENGTH : Nat := 16

/-- One byte rendered as two hex digits, as Buffer.toString('hex') does
digit by digit. -/
def byteToHex (b : Nat) : List Nat := [b / 16, b % 16]

/-- Hex encoding of a byte string: each byte becomes two hex digits. -/
def bytesToHex : List Nat → List Nat
  | [] => []
  | b :: bs => byteToHex b ++ bytesToHex bs

/-- Hex decoding: consecutive digit pairs become bytes, as Buffer.from(s,'hex'). -/
def hexToBytes : List Nat → List Nat
  | h :: l :: rest => (16 * h + l) :: hexToBytes rest
  | _ => []

/-- Modelled from the spec: the aes-256-gcm cipher core lives in the external
node:crypto library, not in this repository.  §4.3 requires an authenticated
symmetric cipher; GCM encrypts in counter mode, so the core is modelled as a
concrete per-position keystream reduced to a byte. -/
def keystream (key : Nat) (iv : List Nat) (i : Nat) : Nat :=
  (key + iv.sum + i) % 256

/-- Counter-mode pass starting at keystream position `i`: each byte is XORed
with the keystream byte for its position.  Used for both directions, as in GCM. -/
def ctrFrom (key : Nat) (iv : List Nat) : Nat → List Nat → List Nat
  | _, [] => []
  | i, b :: bs => (b ^^^ keystream key iv i) :: ctrFrom key iv (i + 1) bs

def ctr (key : Nat) (iv : List Nat) (data : List Nat) : List Nat :=
  ctrFrom key iv 0 data

/-- Modelled from the spec: the GCM authentication tag of node:crypto, a
16-byte MAC over the ciphertext under the key and nonce.  Modelled as a
byte checksum followed by padding bytes. -/
def authTagBytes (key : Nat) (iv ct : List Nat) : List Nat :=
  ((key + iv.sum + ct.sum) % 256) :: List.replicate (AUTH_TAG_LENGTH - 1) 0

/-- Embedding of `encrypt` from src/code-storage.ts: encrypt the utf8 bytes
of the text, then return iv + authTag + encrypted, all hex.  The fresh random
nonce drawn by crypto.randomBytes is passed in as the `iv` parameter. -/
def encrypt (key : Nat) (iv : List Nat) (text : List Nat) : List Nat :=
  bytesToHex iv ++ bytesToHex (authTagBytes key iv (ctr key iv text)) ++
    bytesToHex (ctr key iv text)

/-- Core of decryption once the three hex segments are parsed: GCM releases
the plaintext only when the recomputed tag matches the embedded one;
otherwise decipher.final throws, which the model renders as `none`. -/
def decryptParts (key : Nat) (iv authTag encrypted : List Nat) : Option (List Nat) :=
  if authTag = authTagBytes key iv encrypted then some (ctr key iv encrypted)
  else none

/-- Embedding of `decrypt` from src/code-storage.ts: slice the blob into
iv, authTag and payload at the hex offsets used by the source
(IV_LENGTH*2 and (IV_LENGTH+AUTH_TAG_LENGTH)*2), then decipher. -/
def decrypt (key : Nat) (encryptedData : List Nat) : Option (List Nat) :=
  decryptParts key
    (hexToBytes (encryptedData.take (IV_LENGTH * 2)))
    (hexToBytes ((encryptedData.drop (IV_LENGTH * 2)).take (AUTH_TAG_LENGTH * 2)))
    (hexToBytes (encryptedData.drop ((IV_LENGTH + AUTH_TAG_LENGTH) * 2)))

/- ===== Secure Code Store, storage layer (src/code-storage.ts) ===== -/

/-- A persisted record of the store: { slot, name, pin } with `pin` the
encrypted hex blob. -/
structure UserCode where
  slot : Nat
  name : String
  pin : List Nat
  deriving Repr, DecidableEq

structure CodeStorage where
  codes : List UserCode
  deriving Repr, DecidableEq

/-- The utf8 bytes of a string; PINs are ASCII digits so one char is one byte. -/
def strBytes (s : String) : List Nat := s.data.map Char.toNat

/-- The store file as seen by loadStorage: `none` when the file is missing,
`some none` when reading or JSON.parse throws, `some (some s)` when it parses. -/
abbrev StoreFile := Option (Option CodeStorage)

/-- Embedding of `loadStorage`: a missing file and a parse error are both
caught and give the empty store. -/
def loadStorage (file : StoreFile) : CodeStorage :=
  match file with
  | some (some storage) => storage
  | some none => ⟨[]⟩
  | none => ⟨[]⟩

/-- Embedding of `getAllCodes`: slot and name only, the pin is not touched. -/
def getAllCodes (file : StoreFile) : List (Nat × String) :=
  (loadStorage file).codes.map (fun code => (code.slot, code.name))

/-- Embedding of `getCode`: find the slot's record and decrypt its pin.
The inner `none` records that decrypt threw on a corrupted blob. -/
def getCode (key : Nat) (file : StoreFile) (slot : Nat) :
    Option (String × Option (List Nat)) :=
  ((loadStorage file).codes.find? (fun c => c.slot == slot)).map
    (fun code => (code.name, decrypt key code.pin))

/-- The source's PIN validation regex `^\d{4,8}$`. -/
def pinValid (pin : String) : Bool :=
  decide (4 ≤ pin.length) && decide (pin.length ≤ 8) &&
    pin.data.all (fun c => c.isDigit)

/-- Insertion step of the by-slot sort that saveCode applies before writing. -/
def insertBySlot (c : UserCode) : List UserCode → List UserCode
  | [] => [c]
  | d :: ds => if c.slot ≤ d.slot then c :: d :: ds else d :: insertBySlot c ds

def sortBySlot : List UserCode → List UserCode
  | [] => []
  | c :: cs => insertBySlot c (sortBySlot cs)

/-- Embedding of `saveCode`: validate the PIN, drop any record for the slot,
append the new encrypted record, sort by slot, and return the storage that
saveStorage writes.  On an invalid PIN the source throws. -/
def saveCode (key : Nat) (iv : List Nat) (file : StoreFile) (slot : Nat)
    (name : String) (pin : String) : Except String CodeStorage :=
  if !pinValid pin then .error ("PIN must be 4-8 digits")
  else
    .ok ⟨sortBySlot ((loadStorage file).codes.filter (fun c => !(c.slot == slot)) ++
      [⟨slot, name, encrypt key iv (strBytes pin)⟩])⟩

/-- Embedding of `deleteCode` from src/code-storage.ts: filter the slot out
and write the result back; no device interaction, no failure path. -/
def deleteCode (file : StoreFile) (slot : Nat) : CodeStorage :=
  ⟨(loadStorage file).codes.filter (fun c => !(c.slot == slot))⟩

/- ===== Lock Command Workflow (src/commands.ts) ===== -/

/-- A User Code report from the device: { userIdStatus, userCode }. -/
structure CodeData where
  userIdStatus : Nat
  userCode : Option String
  deriving Repr, DecidableEq

/-- A supervision report for the set command; the source only logs its
status field. -/
structure SupervisionResult where
  status : Nat
  deriving Repr, DecidableEq

/-- The device commands a workflow can issue, recorded as a trace. -/
inductive DevCmd
  | getCapabilities
  | getUsersCount
  | getSlot (slot : Nat)
  | setSlot (slot : Nat) (userIdStatus : Nat) (userCode : String)
  | clearSlot (slot : Nat)
  deriving Repr, DecidableEq

/-- The responses the external zwave-js driver gives to one run of
`setUserCode`: node lookup, command-class lookup, and the four device
round trips in source order.  `Except.error` means the await threw. -/
structure SetCodeSession where
  nodeExists : Bool
  hasUserCodeCC : Bool
  capabilitiesResult : Except Unit Unit
  readBefore : Except Unit (Option CodeData)
  setResult : Except Unit (Option SupervisionResult)
  readAfter : Except Unit (Option CodeData)

/-- How one `setUserCode` run ends.  The source signals every non-success
by throwing; the distinct constructors record which throw site fired.
`rejected` carries the re-read status quoted in the thrown message. -/
inductive SetOutcome
  | nodeNotFound
  | noUserCodeCC
  | setCommandError
  | verifyQueryError
  | rejected (finalStatus : Option Nat)
  | success
  deriving Repr, DecidableEq

/-- Embedding of `setUserCode` from src/commands.ts.  Capability and
current-state reads are issued but their failures are caught and only
logged; the set command's failure is rethrown; after the settle delay the
slot is re-read, a failed re-read is rethrown, and the run succeeds
exactly when the re-read status is 1 (Occupied).  Returns the outcome and
the trace of device commands issued. -/
def setUserCode (sess : SetCodeSession) (slot : Nat) (code : String) :
    SetOutcome × List DevCmd :=
  if !sess.nodeExists then (.nodeNotFound, [])
  else if !sess.hasUserCodeCC then (.noUserCodeCC, [])
  else
    match sess.setResult with
    | .error _ => (.setCommandError, [.getCapabilities, .getSlot slot, .setSlot slot 1 code])
    | .ok _ =>
      match sess.readAfter with
      | .error _ =>
          (.verifyQueryError,
            [.getCapabilities, .getSlot slot, .setSlot slot 1 code, .getSlot slot])
      | .ok verification =>
          if verification.map CodeData.userIdStatus ≠ some 1 then
            (.rejected (verification.map CodeData.userIdStatus),
              [.getCapabilities, .getSlot slot, .setSlot slot 1 code, .getSlot slot])
          else
            (.success,
              [.getCapabilities, .getSlot slot, .setSlot slot 1 code, .getSlot slot])

/-- The set-code operation as wired by the callers of the repository (the
set-code CLI action in src/index.ts): it runs `setUserCode` against the
driver and does nothing else; no caller of the operation touches the Code
Store, so the store passes through unchanged. -/
def setCodeOperation (store : CodeStorage) (sess : SetCodeSession) (slot : Nat)
    (code : String) : SetOutcome × CodeStorage :=
  ((setUserCode sess slot code).1, store)

/-- Driver responses for one `deleteUserCode` run. -/
structure ClearSession where
  nodeExists : Bool
  hasUserCodeCC : Bool
  clearResult : Except Unit Unit

inductive DeleteOutcome
  | nodeNotFound
  | noUserCodeCC
  | clearError
  | success
  deriving Repr, DecidableEq

/-- Embedding of `deleteUserCode` from src/commands.ts: look up the node
and command class, then clear the slot; a failure of the clear command is
not caught and propagates. -/
def deleteUserCode (sess : ClearSession) (slot : Nat) : DeleteOutcome × List DevCmd :=
  if !sess.nodeExists then (.nodeNotFound, [])
  else if !sess.hasUserCodeCC then (.noUserCodeCC, [])
  else
    match sess.clearResult with
    | .error _ => (.clearError, [.clearSlot slot])
    | .ok _ => (.success, [.clearSlot slot])

/-- The delete-code operation as wired by the delete-code CLI action in
src/index.ts: only `deleteUserCode`; the Code Store is never touched. -/
def deleteCodeOperation (store : CodeStorage) (sess : ClearSession) (slot : Nat) :
    DeleteOutcome × CodeStorage :=
  ((deleteUserCode sess slot).1, store)

/-- Driver responses for one `getUserCodes` run: the users-count query and
one per-slot query response function. -/
structure ListCodesSession where
  nodeExists : Bool
  hasUserCodeCC : Bool
  usersCount : Except Unit (Option Nat)
  query : Nat → Except Unit (Option CodeData)

inductive ListCodesResult
  | nodeNotFound
  | noUserCodeCC
  | usersCountError
  | ok (codes : List (Nat × Nat))
  deriving Repr, DecidableEq

/-- The source's `usersCount || 30`: an absent or zero count falls back to
the default ceiling of 30. -/
def maxSlotsOf (usersCount : Option Nat) : Nat :=
  match usersCount with
  | none => 30
  | some 0 => 30
  | some n => n

/-- Embedding of `getUserCodes` from src/commands.ts: query slots 1 up to
the reported maximum (default 30); each per-slot query sits in its own
try/catch, so a failing slot is skipped and enumeration continues; a slot
is collected with its status exactly when its response is present and the
status is not 0 (Available). -/
def getUserCodes (sess : ListCodesSession) : ListCodesResult × List DevCmd :=
  if !sess.nodeExists then (.nodeNotFound, [])
  else if !sess.hasUserCodeCC then (.noUserCodeCC, [])
  else
    match sess.usersCount with
    | .error _ => (.usersCountError, [.getUsersCount])
    | .ok uc =>
        (.ok ((List.range' 1 (maxSlotsOf uc)).filterMap (fun slot =>
          match sess.query slot with
          | .error _ => none
          | .ok none => none
          | .ok (some codeData) =>
              if codeData.userIdStatus ≠ 0 then some (slot, codeData.userIdStatus)
              else none)),
         .getUsersCount :: (List.range' 1 (maxSlotsOf uc)).map DevCmd.getSlot)

/- ===== The spec's Verified Set Result, for comparison (refinement target) ===== -/

/-- Modelled from the spec: the Verified Set Result data model of §3, which
the source does not define. -/
inductive SpecSetResult
  | Confirmed
  | RejectedUnknownReason
  | RejectedLikelyDuplicate
  | DeviceUnreachable
  deriving Repr, DecidableEq

/-- Modelled from the spec: "the store already holds this PIN value in
another slot" (§4.2 step 5), read off the decrypted secrets. -/
def storeHoldsPinElsewhere (key : Nat) (storage : CodeStorage) (slot : Nat)
    (pin : String) : Bool :=
  storage.codes.any (fun c => !(c.slot == slot) && (decrypt key c.pin == some (strBytes pin)))

/-- Modelled from the spec: the outcome classification of §4.2 step 5,
which the claims compare against the code's behaviour. -/
def specClassify (key : Nat) (storage : CodeStorage) (slot : Nat) (pin : String)
    (sess : SetCodeSession) : SpecSetResult :=
  match sess.readAfter with
  | .error _ => .DeviceUnreachable
  | .ok v =>
      if v.map CodeData.userIdStatus = some 1 then .Confirmed
      else if storeHoldsPinElsewhere key storage slot pin then .RejectedLikelyDuplicate
      else .RejectedUnknownReason

/- ===== Connection Lifecycle Manager (src/driver.ts) ===== -/

/-- The module-level mutable state of src/driver.ts: the number of pending
reconnect setTimeout timers (the source keeps at most a single handle in
`reconnectTimeout`), the `isReconnecting` flag, whether a ready driver
instance exists, and how many times readiness was reached. -/
structure DriverState where
  timers : Nat
  isReconnecting : Bool
  ready : Bool
  readyCount : Nat
  deriving Repr, DecidableEq

def initState : DriverState := ⟨0, false, false, 0⟩

/-- Embedding of `scheduleReconnect`: return early when a timer is already
pending, otherwise set the flag and arm one timer. -/
def scheduleReconnect (s : DriverState) : DriverState :=
  if s.timers ≠ 0 then s
  else ⟨s.timers + 1, true, s.ready, s.readyCount⟩

/-- One failed `initializeDriver` call with retryOnFailure: both the
driver error handler and the catch block call `scheduleReconnect`, each
guarded by `!isReconnecting`. -/
def attemptFail (s : DriverState) : DriverState :=
  let s1 := if !s.isReconnecting then scheduleReconnect s else s
  if !s1.isReconnecting then scheduleReconnect s1 else s1

/-- One successful `initializeDriver` call: the driver-ready handler
clears any pending timer and the flag, and the success path clears
`isReconnecting` and stores the ready instance. -/
def attemptSucceed (s : DriverState) : DriverState :=
  ⟨0, false, true, s.readyCount + 1⟩

def attempt (outcome : Bool) (s : DriverState) : DriverState :=
  if outcome then attemptSucceed s else attemptFail s

/-- A pending reconnect timer fires: the callback nulls the timer handle,
destroys the old instance, and calls `initializeDriver` again.  Without a
pending timer nothing happens. -/
def timerFire (outcome : Bool) (s : DriverState) : DriverState :=
  if s.timers = 0 then s
  else attempt outcome ⟨s.timers - 1, s.isReconnecting, false, s.readyCount⟩

def runFrom (s : DriverState) : List Bool → DriverState
  | [] => s
  | o :: os => runFrom (timerFire o s) os

/-- A whole scenario: the first outcome is the initial `initializeDriver`
call, every later outcome is consumed by the next timer firing. -/
def runTrace : List Bool → DriverState
  | [] => initState
  | o :: os => runFrom (attempt o initState) os

/- ===== Concrete sample values used by witnesses and counterexamples ===== -/

/-- A fixed 16-byte nonce standing for one draw of crypto.randomBytes. -/
def iv0 : List Nat := List.replicate IV_LENGTH 3

/-- A device that silently ignores the set command: every response arrives,
but the re-read still reports status 0 (Available). -/
def sessIgnore : SetCodeSession :=
  ⟨true, true, .ok (), .ok (some ⟨0, none⟩), .ok none, .ok (some ⟨0, none⟩)⟩

/-- A device that accepts the set command: the re-read reports status 1. -/
def sessAccept : SetCodeSession :=
  ⟨true, true, .ok (), .ok (some ⟨0, none⟩), .ok none, .ok (some ⟨1, none⟩)⟩

/-- A device whose verification re-read times out. -/
def sessVerifyFail : SetCodeSession :=
  ⟨true, true, .ok (), .ok (some ⟨0, none⟩), .ok none, .error ()⟩

/-- A device whose clear command fails. -/
def sessClearFail : ClearSession := ⟨true, true, .error ()⟩

/-- A store already holding PIN 1111 in slot 5 under key 7 and nonce iv0. -/
def stDup : CodeStorage := ⟨[⟨5, ("spare"), encrypt 7 iv0 (strBytes ("1111"))⟩]⟩

/-- A store holding an arbitrary record in slot 3. -/
def stSlot3 : CodeStorage := ⟨[⟨3, ("tenant"), [1, 2, 3]⟩]⟩

/-- A device reporting 3 slots, whose slot-2 query times out and whose
slot 3 is occupied. -/
def sessList : ListCodesSession :=
  ⟨true, true, .ok (some 3), fun slot =>
    if slot = 2 then .error ()
    else if slot = 3 then .ok (some ⟨1, none⟩)
    else .ok (some ⟨0, none⟩)⟩

/- ===== Helper lemmas on the crypto layer ===== -/

theorem length_bytesToHex (l : List Nat) : (bytesToHex l).length = 2 * l.length := by
  induction l with
  | nil => rfl
  | cons b bs ih => simp [bytesToHex, byteToHex, ih]; omega

theorem hexToBytes_bytesToHex (l : List Nat) : hexToBytes (bytesToHex l) = l := by
  induction l with
  | nil => rfl
  | cons b bs ih =>
      simp only [bytesToHex, byteToHex, List.cons_append, List.nil_append, hexToBytes, ih]
      congr 1
      omega

theorem take_len_append (A B : List Nat) : (A ++ B).take A.length = A := by
  induction A with
  | nil => rfl
  | cons a A ih => simp [ih]

theorem drop_len_append (A B : List Nat) : (A ++ B).drop A.length = B := by
  induction A with
  | nil => rfl
  | cons a A ih => simp [ih]

theorem take_append_of_len (A B : List Nat) (n : Nat) (h : A.length = n) :
    (A ++ B).take n = A :=
  h ▸ take_len_append A B

theorem drop_append_of_len (A B : List Nat) (n : Nat) (h : A.length = n) :
    (A ++ B).drop n = B :=
  h ▸ drop_len_append A B

theorem ctrFrom_ctrFrom (key : Nat) (iv : List Nat) (text : List Nat) :
    ∀ i, ctrFrom key iv i (ctrFrom key iv i text) = text := by
  induction text with
  | nil => intro i; rfl
  | cons b bs ih =>
      intro i
      simp only [ctrFrom, ih]
      congr 1
      rw [Nat.xor_assoc, Nat.xor_self, Nat.xor_zero]

theorem ctr_ctr (key : Nat) (iv : List Nat) (text : List Nat) :
    ctr key iv (ctr key iv text) = text :=
  ctrFrom_ctrFrom key iv text 0

/-- Round trip of the cipher through the source's hex blob format: decrypt
recovers the plaintext from encrypt's output given only the key, for every
16-byte nonce. -/
theorem decrypt_encrypt (key : Nat) (iv text : List Nat) (hiv : iv.length = IV_LENGTH) :
    decrypt key (encrypt key iv text) = some text := by
  have hA : (bytesToHex iv).length = 32 := by
    rw [length_bytesToHex, hiv]; rfl
  have hB : (bytesToHex (authTagBytes key iv (ctr key iv text))).length = 32 := by
    rw [length_bytesToHex]; rfl
  have h64 : (bytesToHex iv ++ bytesToHex (authTagBytes key iv (ctr key iv text))).length = 64 := by
    rw [List.length_append, hA, hB]
  unfold decrypt encrypt
  rw [show IV_LENGTH * 2 = 32 from rfl, show AUTH_TAG_LENGTH * 2 = 32 from rfl,
    show (IV_LENGTH + AUTH_TAG_LENGTH) * 2 = 64 from rfl]
  rw [drop_append_of_len _ _ _ h64, List.append_assoc,
    take_append_of_len _ _ _ hA, drop_append_of_len _ _ _ hA,
    take_append_of_len _ _ _ hB]
  rw [hexToBytes_bytesToHex, hexToBytes_bytesToHex, hexToBytes_bytesToHex]
  rw [decryptParts, if_pos rfl, ctr_ctr]

theorem length_authTagBytes (key : Nat) (iv ct : List Nat) :
    (authTagBytes key iv ct).length = AUTH_TAG_LENGTH := by
  simp [authTagBytes, AUTH_TAG_LENGTH]

theorem keystream_lt (key : Nat) (iv : List Nat) (i : Nat) : keystream key iv i < 256 :=
  Nat.mod_lt _ (by decide)

theorem ctrFrom_mem_lt (key : Nat) (iv : List Nat) :
    ∀ (text : List Nat), (∀ b ∈ text, b < 256) →
      ∀ i, ∀ b ∈ ctrFrom key iv i text, b < 256 := by
  intro text
  induction text with
  | nil => intro _ i b hb; simp [ctrFrom] at hb
  | cons x xs ih =>
      intro h i b hb
      simp only [ctrFrom, List.mem_cons] at hb
      rcases hb with hb | hb
      · subst hb
        have hx : x < 2 ^ 8 := by
          have := h x (by simp)
          omega
        have hk : keystream key iv i < 2 ^ 8 := by
          have := keystream_lt key iv i
          omega
        have := Nat.xor_lt_two_pow hx hk
        omega
      · exact ih (fun b hb2 => h b (by simp [hb2])) (i + 1) b hb

theorem add_mod_256_ne (X : Nat) {a b : Nat} (hab : a ≠ b) (ha : a < 256) (hb : b < 256) :
    (X + a) % 256 ≠ (X + b) % 256 := by
  omega

theorem sum_set_mod_ne (b1 : Nat) (hb1 : b1 < 256) :
    ∀ (l : List Nat) (k C : Nat), l.set k b1 ≠ l → (∀ b ∈ l, b < 256) →
      (C + (l.set k b1).sum) % 256 ≠ (C + l.sum) % 256 := by
  intro l
  induction l with
  | nil => intro k C hne _; simp at hne
  | cons x xs ih =>
      intro k C hne hlt
      cases k with
      | zero =>
          simp only [List.set] at hne ⊢
          have hbx : b1 ≠ x := by
            intro e; exact hne (by rw [e])
          rw [List.sum_cons, List.sum_cons,
            show C + (b1 + xs.sum) = (C + xs.sum) + b1 by omega,
            show C + (x + xs.sum) = (C + xs.sum) + x by omega]
          exact add_mod_256_ne _ hbx hb1 (hlt x (by simp))
      | succ k =>
          simp only [List.set] at hne ⊢
          have hxs : xs.set k b1 ≠ xs := by
            intro e; exact hne (by rw [e])
          rw [List.sum_cons, List.sum_cons,
            show C + (x + (xs.set k b1).sum) = (C + x) + (xs.set k b1).sum by omega,
            show C + (x + xs.sum) = (C + x) + xs.sum by omega]
          exact ih k (C + x) hxs (fun b hb2 => hlt b (by simp [hb2]))

theorem decrypt_append (key : Nat) (A B C : List Nat) (hA : A.length = 32)
    (hB : B.length = 32) :
    decrypt key (A ++ B ++ C) = decryptParts key (hexToBytes A) (hexToBytes B) (hexToBytes C) := by
  have h64 : (A ++ B).length = 64 := by rw [List.length_append, hA, hB]
  unfold decrypt
  rw [show IV_LENGTH * 2 = 32 from rfl, show AUTH_TAG_LENGTH * 2 = 32 from rfl,
    show (IV_LENGTH + AUTH_TAG_LENGTH) * 2 = 64 from rfl]
  rw [drop_append_of_len _ _ _ h64, List.append_assoc, take_append_of_len _ _ _ hA,
    drop_append_of_len _ _ _ hA, take_append_of_len _ _ _ hB]

/-- Flipping a byte of the embedded authentication tag makes decryption fail. -/
theorem decrypt_tamper_tag (key : Nat) (iv text : List Nat) (k b1 : Nat)
    (hiv : iv.length = IV_LENGTH)
    (hset : (authTagBytes key iv (ctr key iv text)).set k b1 ≠
      authTagBytes key iv (ctr key iv text)) :
    decrypt key (bytesToHex iv ++
      bytesToHex ((authTagBytes key iv (ctr key iv text)).set k b1) ++
      bytesToHex (ctr key iv text)) = none := by
  have hA : (bytesToHex iv).length = 32 := by rw [length_bytesToHex, hiv]; rfl
  have hB : (bytesToHex ((authTagBytes key iv (ctr key iv text)).set k b1)).length = 32 := by
    rw [length_bytesToHex, List.length_set, length_authTagBytes]; rfl
  rw [decrypt_append _ _ _ _ hA hB, hexToBytes_bytesToHex, hexToBytes_bytesToHex,
    hexToBytes_bytesToHex, decryptParts, if_neg hset]

/-- Flipping a byte of the encrypted payload makes decryption fail: the
recomputed tag no longer matches the embedded one. -/
theorem decrypt_tamper_payload (key : Nat) (iv text : List Nat) (k b1 : Nat)
    (hiv : iv.length = IV_LENGTH) (htext : ∀ b ∈ text, b < 256) (hb1 : b1 < 256)
    (hset : (ctr key iv text).set k b1 ≠ ctr key iv text) :
    decrypt key (bytesToHex iv ++ bytesToHex (authTagBytes key iv (ctr key iv text)) ++
      bytesToHex ((ctr key iv text).set k b1)) = none := by
  have hA : (bytesToHex iv).length = 32 := by rw [length_bytesToHex, hiv]; rfl
  have hB : (bytesToHex (authTagBytes key iv (ctr key iv text))).length = 32 := by
    rw [length_bytesToHex, length_authTagBytes]; rfl
  rw [decrypt_append _ _ _ _ hA hB, hexToBytes_bytesToHex, hexToBytes_bytesToHex,
    hexToBytes_bytesToHex, decryptParts]
  apply if_neg
  intro h
  have hct : ∀ b ∈ ctr key iv text, b < 256 := ctrFrom_mem_lt key iv text htext 0
  have hsum := sum_set_mod_ne b1 hb1 (ctr key iv text) k (key + iv.sum) hset hct
  have hheads : (key + iv.sum + (ctr key iv text).sum) % 256 =
      (key + iv.sum + ((ctr key iv text).set k b1).sum) % 256 := by
    have := congrArg (fun l => l.headD 0) h
    simpa [authTagBytes] using this
  exact hsum hheads.symm

/- ===== Helper lemmas on the command workflow ===== -/

theorem setUserCode_success_iff (sess : SetCodeSession) (slot : Nat) (code : String) :
    (setUserCode sess slot code).1 = SetOutcome.success ↔
      sess.nodeExists = true ∧ sess.hasUserCodeCC = true ∧
      (∃ r, sess.setResult = Except.ok r) ∧
      (∃ d, sess.readAfter = Except.ok (some d) ∧ d.userIdStatus = 1) := by
  obtain ⟨ne, cc, cap, rb, sr, ra⟩ := sess
  cases ne with
  | false => simp [setUserCode]
  | true =>
    cases cc with
    | false => simp [setUserCode]
    | true =>
      cases sr with
      | error e => simp [setUserCode]
      | ok r =>
        cases ra with
        | error e => simp [setUserCode]
        | ok v =>
          cases v with
          | none => simp [setUserCode]
          | some d =>
            by_cases hd : d.userIdStatus = 1
            · simp [setUserCode, hd]
            · simp [setUserCode, hd]

theorem setUserCode_success_pair (sess : SetCodeSession) (slot : Nat) (code : String)
    (h : (setUserCode sess slot code).1 = SetOutcome.success) :
    setUserCode sess slot code =
      (SetOutcome.success,
        [DevCmd.getCapabilities, DevCmd.getSlot slot, DevCmd.setSlot slot 1 code,
          DevCmd.getSlot slot]) := by
  obtain ⟨ne, cc, cap, rb, sr, ra⟩ := sess
  cases ne with
  | false => simp [setUserCode] at h
  | true =>
    cases cc with
    | false => simp [setUserCode] at h
    | true =>
      cases sr with
      | error e => simp [setUserCode] at h
      | ok r =>
        cases ra with
        | error e => simp [setUserCode] at h
        | ok v =>
          cases v with
          | none => simp [setUserCode] at h
          | some d =>
            by_cases hd : d.userIdStatus = 1
            · simp [setUserCode, hd]
            · simp [setUserCode, hd] at h

theorem setUserCode_rejected_of (sess : SetCodeSession) (slot : Nat) (code : String)
    (hne : sess.nodeExists = true) (hcc : sess.hasUserCodeCC = true)
    (r : Option SupervisionResult) (hsr : sess.setResult = Except.ok r)
    (d : CodeData) (hra : sess.readAfter = Except.ok (some d)) (hd : d.userIdStatus ≠ 1) :
    (setUserCode sess slot code).1 = SetOutcome.rejected (some d.userIdStatus) := by
  obtain ⟨ne, cc, cap, rb, sr, ra⟩ := sess
  cases ne with
  | false => simp at hne
  | true =>
    cases cc with
    | false => simp at hcc
    | true =>
      cases sr with
      | error e => simp at hsr
      | ok r2 =>
        cases ra with
        | error e => simp at hra
        | ok v =>
          have hv : v = some d := by simpa using hra
          subst hv
          simp [setUserCode, hd]

theorem setUserCode_unreachable_of (sess : SetCodeSession) (slot : Nat) (code : String)
    (hne : sess.nodeExists = true) (hcc : sess.hasUserCodeCC = true)
    (r : Option SupervisionResult) (hsr : sess.setResult = Except.ok r)
    (hra : sess.readAfter = Except.error ()) :
    (setUserCode sess slot code).1 = SetOutcome.verifyQueryError := by
  obtain ⟨ne, cc, cap, rb, sr, ra⟩ := sess
  cases ne with
  | false => simp at hne
  | true =>
    cases cc with
    | false => simp at hcc
    | true =>
      cases sr with
      | error e => simp at hsr
      | ok r2 =>
        cases ra with
        | error e => simp [setUserCode]
        | ok v => simp at hra

/- ===== Helper lemmas on the storage layer ===== -/

theorem mem_insertBySlot (c a : UserCode) (l : List UserCode) :
    a ∈ insertBySlot c l ↔ a ∈ c :: l := by
  induction l with
  | nil => simp [insertBySlot]
  | cons d ds ih =>
      simp only [insertBySlot]
      split
      · simp
      · simp only [List.mem_cons] at ih ⊢
        rw [ih]
        tauto

theorem mem_sortBySlot (a : UserCode) (l : List UserCode) :
    a ∈ sortBySlot l ↔ a ∈ l := by
  induction l with
  | nil => simp [sortBySlot]
  | cons c cs ih =>
      simp only [sortBySlot]
      rw [mem_insertBySlot]
      simp [ih]

theorem find?_eq_of_unique (p : UserCode → Bool) (l : List UserCode) (c : UserCode)
    (hc : c ∈ l) (hp : p c = true) (huniq : ∀ d ∈ l, p d = true → d = c) :
    l.find? p = some c := by
  induction l with
  | nil => simp at hc
  | cons x xs ih =>
      by_cases hx : p x = true
      · have hxc : x = c := huniq x (by simp) hx
        subst hxc
        simp [List.find?_cons_of_pos, hx]
      · rw [List.find?_cons_of_neg _ hx]
        have hc2 : c ∈ xs := by
          rcases List.mem_cons.mp hc with he | h2
          · exact absurd (he ▸ hp) (he ▸ hx)
          · exact h2
        exact ih hc2 (fun d hd hpd => huniq d (by simp [hd]) hpd)

/- ===== Helper lemmas on the lifecycle model ===== -/

theorem scheduleReconnect_timers (s : DriverState) (h : s.timers ≤ 1) :
    (scheduleReconnect s).timers ≤ 1 := by
  unfold scheduleReconnect
  split
  · exact h
  · simp
    omega

theorem attemptFail_timers (s : DriverState) (h : s.timers ≤ 1) :
    (attemptFail s).timers ≤ 1 := by
  unfold attemptFail
  dsimp only
  split
  · split
    · exact scheduleReconnect_timers _ (scheduleReconnect_timers s h)
    · exact scheduleReconnect_timers s h
  · exact h

theorem attempt_timers (o : Bool) (s : DriverState) (h : s.timers ≤ 1) :
    (attempt o s).timers ≤ 1 := by
  unfold attempt
  split
  · exact Nat.zero_le 1
  · exact attemptFail_timers s h

theorem timerFire_timers (o : Bool) (s : DriverState) (h : s.timers ≤ 1) :
    (timerFire o s).timers ≤ 1 := by
  unfold timerFire
  split
  · exact h
  · exact attempt_timers o _ (by simp; omega)

theorem runFrom_timers (os : List Bool) :
    ∀ s : DriverState, s.timers ≤ 1 → (runFrom s os).timers ≤ 1 := by
  induction os with
  | nil => intro s h; exact h
  | cons o os ih => intro s h; exact ih _ (timerFire_timers o s h)

/- ===== Claim theorems ===== -/

/-- C1: for every device session, slot and PIN, setUserCode declares success
only when the post-settle-delay re-read of the slot reports status 1
(Occupied), and the re-read step is always part of a successful trace; when
the re-read reports any other status the run never succeeds, and in
particular a still-Available slot (status 0) yields the rejection outcome,
so a silently-ignoring device can never make setUserCode return as
confirmed. -/
theorem C1_success_only_after_occupied_readback :
    ∀ (sess : SetCodeSession) (slot : Nat) (code : String),
      ((setUserCode sess slot code).1 = SetOutcome.success →
        ∃ d, sess.readAfter = Except.ok (some d) ∧ d.userIdStatus = 1) ∧
      ((setUserCode sess slot code).1 = SetOutcome.success →
        (setUserCode sess slot code).2 =
          [DevCmd.getCapabilities, DevCmd.getSlot slot, DevCmd.setSlot slot 1 code,
            DevCmd.getSlot slot]) ∧
      (∀ d, sess.readAfter = Except.ok (some d) → d.userIdStatus ≠ 1 →
        (setUserCode sess slot code).1 ≠ SetOutcome.success) ∧
      (sess.nodeExists = true → sess.hasUserCodeCC = true →
        ∀ r, sess.setResult = Except.ok r →
        ∀ d, sess.readAfter = Except.ok (some d) → d.userIdStatus ≠ 1 →
          (setUserCode sess slot code).1 = SetOutcome.rejected (some d.userIdStatus)) := by
  intro sess slot code
  refine ⟨?_, ?_, ?_, ?_⟩
  · intro h
    exact ((setUserCode_success_iff sess slot code).1 h).2.2.2
  · intro h
    rw [setUserCode_success_pair sess slot code h]
  · intro d hra hd h
    obtain ⟨_, _, _, d2, hra2, hd2⟩ := (setUserCode_success_iff sess slot code).1 h
    rw [hra] at hra2
    have hdd : d = d2 := Option.some.inj (Except.ok.inj hra2)
    exact hd (hdd ▸ hd2)
  · intro hne hcc r hsr d hra hd
    exact setUserCode_rejected_of sess slot code hne hcc r hsr d hra hd

/-- C1 witness: on the silently-ignoring device the run is rejected with the
still-Available status, applying the theorem at a concrete session. -/
theorem C1_witness :
    (setUserCode sessIgnore 2 ("1111")).1 = SetOutcome.rejected (some 0) :=
  (C1_success_only_after_occupied_readback sessIgnore 2 ("1111")).2.2.2
    rfl rfl none rfl ⟨0, none⟩ rfl (by decide)

/-- C2 counterexample: the spec classification distinguishes the store with a
duplicate PIN 1111 in slot 5 from the empty store on the silently-ignoring
device, but the code's operation returns the identical single rejection
outcome for both stores (it never consults the store), so the claimed
RejectedLikelyDuplicate / RejectedUnknownReason distinction does not exist
in the code. -/
theorem C2_counterexample :
    specClassify 7 stDup 2 ("1111") sessIgnore = SpecSetResult.RejectedLikelyDuplicate ∧
    specClassify 7 ⟨[]⟩ 2 ("1111") sessIgnore = SpecSetResult.RejectedUnknownReason ∧
    (setCodeOperation stDup sessIgnore 2 ("1111")).1 =
      (setCodeOperation ⟨[]⟩ sessIgnore 2 ("1111")).1 := by
  refine ⟨by decide, by decide, rfl⟩

/-- C2 amended: when the re-read shows the status unchanged the operation
produces one undifferentiated rejection outcome that is independent of the
Code Store (which the workflow never consults and which carries no
duplicate distinction), while a transport failure on the re-read
propagates the read error, an outcome distinct from the rejection. -/
theorem C2_rejection_undifferentiated :
    ∀ (store1 store2 : CodeStorage) (sess : SetCodeSession) (slot : Nat) (code : String),
      ((setCodeOperation store1 sess slot code).1 =
        (setCodeOperation store2 sess slot code).1) ∧
      (sess.nodeExists = true → sess.hasUserCodeCC = true →
        ∀ r, sess.setResult = Except.ok r →
        ∀ d, sess.readAfter = Except.ok (some d) → d.userIdStatus = 0 →
          (setUserCode sess slot code).1 = SetOutcome.rejected (some 0)) ∧
      (sess.nodeExists = true → sess.hasUserCodeCC = true →
        ∀ r, sess.setResult = Except.ok r → sess.readAfter = Except.error () →
          (setUserCode sess slot code).1 = SetOutcome.verifyQueryError) ∧
      (∀ st, SetOutcome.rejected st ≠ SetOutcome.verifyQueryError) := by
  intro store1 store2 sess slot code
  refine ⟨rfl, ?_, ?_, ?_⟩
  · intro hne hcc r hsr d hra hd
    have := setUserCode_rejected_of sess slot code hne hcc r hsr d hra (by omega)
    rw [hd] at this
    exact this
  · intro hne hcc r hsr hra
    exact setUserCode_unreachable_of sess slot code hne hcc r hsr hra
  · intro st h
    exact SetOutcome.noConfusion h

/-- C2 witness: a timed-out verification read on a concrete session yields the
distinct verify-query error, applying the theorem at that session. -/
theorem C2_witness :
    (setUserCode sessVerifyFail 2 ("1111")).1 = SetOutcome.verifyQueryError :=
  (C2_rejection_undifferentiated ⟨[]⟩ ⟨[]⟩ sessVerifyFail 2 ("1111")).2.2.1
    rfl rfl none rfl rfl

/-- C3 counterexample: a confirmed set of PIN 4321 on slot 3 (device accepts,
re-read reports Occupied) leaves the Code Store without any record for slot
3 — the workflow never persists, contradicting the claim that on Confirmed
the store contains a record for the slot. -/
theorem C3_counterexample :
    (setCodeOperation ⟨[]⟩ sessAccept 3 ("4321")).1 = SetOutcome.success ∧
    ((setCodeOperation ⟨[]⟩ sessAccept 3 ("4321")).2).codes.find?
      (fun c => c.slot == 3) = none :=
  ⟨rfl, rfl⟩

/-- C3 amended: the set-user-code workflow leaves the Code Store unchanged on
every outcome, Confirmed included (the store module is not wired into the
workflow); the store is only changed by the stand-alone saveCode, and a
saveCode of a valid PIN does produce a store whose record for the slot has a
secret decrypting to that PIN. -/
theorem C3_store_unchanged_and_saveCode_roundtrip :
    (∀ (store : CodeStorage) (sess : SetCodeSession) (slot : Nat) (code : String),
      (setCodeOperation store sess slot code).2 = store) ∧
    (∀ (key : Nat) (iv : List Nat) (file : StoreFile) (slot : Nat) (name pin : String),
      iv.length = IV_LENGTH → pinValid pin = true →
      ∃ st2, saveCode key iv file slot name pin = Except.ok st2 ∧
        getCode key (some (some st2)) slot = some (name, some (strBytes pin))) := by
  constructor
  · intro store sess slot code
    rfl
  · intro key iv file slot name pin hiv hpin
    refine ⟨⟨sortBySlot ((loadStorage file).codes.filter (fun c => !(c.slot == slot)) ++
      [⟨slot, name, encrypt key iv (strBytes pin)⟩])⟩, ?_, ?_⟩
    · simp [saveCode, hpin]
    have hfind :
        (sortBySlot ((loadStorage file).codes.filter (fun c => !(c.slot == slot)) ++
          [⟨slot, name, encrypt key iv (strBytes pin)⟩])).find? (fun c => c.slot == slot) =
        some ⟨slot, name, encrypt key iv (strBytes pin)⟩ := by
      apply find?_eq_of_unique
      · rw [mem_sortBySlot]
        exact List.mem_append_right _ (by simp)
      · simp
      · intro d hd hpd
        rw [mem_sortBySlot] at hd
        rcases List.mem_append.mp hd with hd2 | hd2
        · have := (List.mem_filter.mp hd2).2
          simp at this
          simp at hpd
          exact absurd hpd this
        · simpa using hd2
    have hload : ∀ st : CodeStorage, loadStorage (some (some st)) = st := fun st => rfl
    simp only [getCode, hload, hfind, Option.map_some']
    rw [decrypt_encrypt key iv (strBytes pin) hiv]

/-- C3 witness: saving PIN 4321 for slot 3 under key 7 and nonce iv0 yields a
store whose slot-3 record decrypts back to 4321, applying the theorem at
those inputs. -/
theorem C3_witness :
    ∃ st2, saveCode 7 iv0 none 3 ("alice") ("4321") = Except.ok st2 ∧
      getCode 7 (some (some st2)) 3 = some (("alice"), some (strBytes ("4321"))) :=
  C3_store_unchanged_and_saveCode_roundtrip.2 7 iv0 none 3 ("alice") ("4321")
    (by decide) (by decide)

/-- C4 counterexample: with slot 0 (outside 1..30) and the 2-digit PIN 12,
setUserCode issues the device set command and even completes successfully;
no InvalidFormat fail-fast happens before contacting the device, although
the PIN fails the regex. -/
theorem C4_counterexample :
    setUserCode sessAccept 0 ("12") =
      (SetOutcome.success,
        [DevCmd.getCapabilities, DevCmd.getSlot 0, DevCmd.setSlot 0 1 ("12"),
          DevCmd.getSlot 0]) ∧
    pinValid ("12") = false :=
  ⟨rfl, by decide⟩

/-- C4 amended: the device-level setUserCode performs no PIN-format and no
slot-range validation — whenever the node and its User Code command class
exist it issues the set command for any slot and PIN string; the only
^\d{4,8}$ validation in the repository lives in the Code Store's saveCode
(which the workflow never calls), and that one does fail fast on a
malformed PIN before persisting. -/
theorem C4_no_validation_in_setUserCode :
    (∀ (sess : SetCodeSession) (slot : Nat) (code : String),
      sess.nodeExists = true → sess.hasUserCodeCC = true →
      DevCmd.setSlot slot 1 code ∈ (setUserCode sess slot code).2) ∧
    (∀ (key : Nat) (iv : List Nat) (file : StoreFile) (slot : Nat) (name pin : String),
      pinValid pin = false →
      saveCode key iv file slot name pin = Except.error ("PIN must be 4-8 digits")) := by
  constructor
  · intro sess slot code hne hcc
    obtain ⟨ne, cc, cap, rb, sr, ra⟩ := sess
    cases ne with
    | false => simp at hne
    | true =>
      cases cc with
      | false => simp at hcc
      | true =>
        cases sr with
        | error e => simp [setUserCode]
        | ok r =>
          cases ra with
          | error e => simp [setUserCode]
          | ok v =>
            by_cases hv : v.map CodeData.userIdStatus = some 1
            · simp [setUserCode, hv]
            · simp [setUserCode, hv]
  · intro key iv file slot name pin hpin
    simp [saveCode, hpin]

/-- C4 witness: the set command for slot 0 with PIN 12 is in the issued trace,
and saveCode rejects PIN 12, applying the theorem at those inputs. -/
theorem C4_witness :
    DevCmd.setSlot 0 1 ("12") ∈ (setUserCode sessAccept 0 ("12")).2 ∧
    saveCode 7 iv0 none 3 ("bob") ("12") = Except.error ("PIN must be 4-8 digits") :=
  ⟨C4_no_validation_in_setUserCode.1 sessAccept 0 ("12") rfl rfl,
   C4_no_validation_in_setUserCode.2 7 iv0 none 3 ("bob") ("12") (by decide)⟩

/-- C5: the at-most-one-pending-timer half of the claim holds on every trace,
and one transport failure followed by a success reaches Ready exactly once;
but two consecutive transport failures followed by an available port strand
the manager with no pending timer, the reconnecting flag stuck and
readiness reached zero times: the failed reconnect attempt cannot
reschedule because every call to scheduleReconnect is guarded by the
still-set isReconnecting flag, so the claimed N-failures-then-success
recovery fails at N = 2. -/
theorem C5_single_timer_but_reconnect_stalls :
    (∀ tr : List Bool, (runTrace tr).timers ≤ 1) ∧
    runTrace [false, true] = ⟨0, false, true, 1⟩ ∧
    runTrace [false, false, true] = ⟨0, true, false, 0⟩ := by
  refine ⟨?_, by decide, by decide⟩
  intro tr
  cases tr with
  | nil => decide
  | cons o os => exact runFrom_timers os _ (attempt_timers o initState (by decide))

/-- C6: decryption inverts encryption through the source's hex blob format
for every key, plaintext and 16-byte nonce; flipping any byte of the
embedded authentication tag, or any byte of the encrypted payload, makes
decryption fail instead of returning wrong plaintext; and the blob is
exactly nonce + authentication tag + payload, so decryption needs only the
key and the blob. -/
theorem C6_encrypt_roundtrip_and_tamper_detect :
    (∀ (key : Nat) (iv text : List Nat), iv.length = IV_LENGTH →
      decrypt key (encrypt key iv text) = some text) ∧
    (∀ (key : Nat) (iv text : List Nat) (k b1 : Nat), iv.length = IV_LENGTH →
      (authTagBytes key iv (ctr key iv text)).set k b1 ≠
        authTagBytes key iv (ctr key iv text) →
      decrypt key (bytesToHex iv ++
        bytesToHex ((authTagBytes key iv (ctr key iv text)).set k b1) ++
        bytesToHex (ctr key iv text)) = none) ∧
    (∀ (key : Nat) (iv text : List Nat) (k b1 : Nat), iv.length = IV_LENGTH →
      (∀ b ∈ text, b < 256) → b1 < 256 →
      (ctr key iv text).set k b1 ≠ ctr key iv text →
      decrypt key (bytesToHex iv ++ bytesToHex (authTagBytes key iv (ctr key iv text)) ++
        bytesToHex ((ctr key iv text).set k b1)) = none) ∧
    (∀ (key : Nat) (iv text : List Nat),
      encrypt key iv text =
        bytesToHex iv ++ bytesToHex (authTagBytes key iv (ctr key iv text)) ++
          bytesToHex (ctr key iv text)) :=
  ⟨fun key iv text hiv => decrypt_encrypt key iv text hiv,
   fun key iv text k b1 hiv hset => decrypt_tamper_tag key iv text k b1 hiv hset,
   fun key iv text k b1 hiv htext hb1 hset =>
     decrypt_tamper_payload key iv text k b1 hiv htext hb1 hset,
   fun _ _ _ => rfl⟩

/-- C6 witness: round trip of PIN 4321 under key 7 and nonce iv0, and failure
of decryption after flipping the first tag byte and the first payload byte
to 255, applying the theorem at those inputs. -/
theorem C6_witness :
    decrypt 7 (encrypt 7 iv0 (strBytes ("4321"))) = some (strBytes ("4321")) ∧
    decrypt 7 (bytesToHex iv0 ++
      bytesToHex ((authTagBytes 7 iv0 (ctr 7 iv0 (strBytes ("4321")))).set 0 255) ++
      bytesToHex (ctr 7 iv0 (strBytes ("4321")))) = none ∧
    decrypt 7 (bytesToHex iv0 ++
      bytesToHex (authTagBytes 7 iv0 (ctr 7 iv0 (strBytes ("4321")))) ++
      bytesToHex ((ctr 7 iv0 (strBytes ("4321"))).set 0 255)) = none :=
  ⟨C6_encrypt_roundtrip_and_tamper_detect.1 7 iv0 (strBytes ("4321")) (by decide),
   C6_encrypt_roundtrip_and_tamper_detect.2.1 7 iv0 (strBytes ("4321")) 0 255
     (by decide) (by decide),
   C6_encrypt_roundtrip_and_tamper_detect.2.2.1 7 iv0 (strBytes ("4321")) 0 255
     (by decide) (by decide) (by decide) (by decide)⟩

/-- C7 counterexample: with a store holding slot 3 and a device whose clear
command fails, the delete operation propagates the failure and leaves the
slot-3 record in the store — contradicting the claim that the record is
removed from the Code Store regardless of the device result. -/
theorem C7_counterexample :
    deleteCodeOperation stSlot3 sessClearFail 3 = (DeleteOutcome.clearError, stSlot3) ∧
    stSlot3.codes.any (fun c => c.slot == 3) = true :=
  ⟨rfl, rfl⟩

/-- C7 amended: the device-level deleteUserCode only issues the clear command
and propagates a device failure, never touching the Code Store (the two
layers are not wired together); the store-level deleteCode removes the
slot's record unconditionally without contacting the device, and on a slot
with no record it returns the store unchanged and cannot fail. -/
theorem C7_delete_store_decoupled :
    (∀ (store : CodeStorage) (sess : ClearSession) (slot : Nat),
      (deleteCodeOperation store sess slot).2 = store) ∧
    (∀ (sess : ClearSession) (slot : Nat), sess.nodeExists = true →
      sess.hasUserCodeCC = true → sess.clearResult = Except.error () →
      (deleteUserCode sess slot).1 = DeleteOutcome.clearError) ∧
    (∀ (file : StoreFile) (slot : Nat),
      (deleteCode file slot).codes.all (fun c => !(c.slot == slot)) = true) ∧
    (∀ (file : StoreFile) (slot : Nat),
      (loadStorage file).codes.all (fun c => !(c.slot == slot)) = true →
      deleteCode file slot = loadStorage file) := by
  refine ⟨fun store sess slot => rfl, ?_, ?_, ?_⟩
  · intro sess slot hne hcc hcl
    obtain ⟨ne, cc, cr⟩ := sess
    cases ne with
    | false => simp at hne
    | true =>
      cases cc with
      | false => simp at hcc
      | true =>
        cases cr with
        | error e => simp [deleteUserCode]
        | ok r => simp at hcl
  · intro file slot
    rw [show (deleteCode file slot).codes =
      (loadStorage file).codes.filter (fun c => !(c.slot == slot)) from rfl]
    rw [List.all_eq_true]
    intro c hc
    exact (List.mem_filter.mp hc).2
  · intro file slot h
    have h2 : (loadStorage file).codes.filter (fun c => !(c.slot == slot)) =
        (loadStorage file).codes := by
      rw [List.filter_eq_self]
      intro a ha
      exact List.all_eq_true.mp h a ha
    show (⟨(loadStorage file).codes.filter (fun c => !(c.slot == slot))⟩ : CodeStorage) =
      loadStorage file
    rw [h2]

/-- C7 witness: a failing clear propagates, and deleting slot 3 from a store
that only holds slot 5 returns it unchanged, applying the theorem at those
inputs. -/
theorem C7_witness :
    (deleteUserCode sessClearFail 9).1 = DeleteOutcome.clearError ∧
    deleteCode (some (some stDup)) 3 = loadStorage (some (some stDup)) :=
  ⟨C7_delete_store_decoupled.2.1 sessClearFail 9 rfl rfl rfl,
   C7_delete_store_decoupled.2.2.2 (some (some stDup)) 3 (by decide)⟩

/-- C8: when the node and its User Code class exist and the users-count query
answers, getUserCodes queries exactly the slots 1 up to the reported
maximum — with the default ceiling 30 when the device reports none — and
returns exactly the pairs of slot and status for the slots whose query
answered with a status other than 0 (Available); a failing per-slot query
is skipped without aborting the rest, as the membership characterisation
over the full range shows. -/
theorem C8_getUserCodes_enumeration :
    ∀ (sess : ListCodesSession) (uc : Option Nat),
      sess.nodeExists = true → sess.hasUserCodeCC = true →
      sess.usersCount = Except.ok uc →
      ((getUserCodes sess).2 =
        DevCmd.getUsersCount :: (List.range' 1 (maxSlotsOf uc)).map DevCmd.getSlot) ∧
      (∃ l, (getUserCodes sess).1 = ListCodesResult.ok l ∧
        ∀ slot st, (slot, st) ∈ l ↔
          (1 ≤ slot ∧ slot < 1 + maxSlotsOf uc ∧ st ≠ 0 ∧
            ∃ d, sess.query slot = Except.ok (some d) ∧ d.userIdStatus = st)) := by
  intro sess uc hne hcc huc
  obtain ⟨ne, cc, ucr, q⟩ := sess
  cases ne with
  | false => simp at hne
  | true =>
    cases cc with
    | false => simp at hcc
    | true =>
      cases ucr with
      | error e => simp at huc
      | ok uc2 =>
        have huc2 : uc2 = uc := by simpa using huc
        subst huc2
        refine ⟨rfl, _, rfl, ?_⟩
        intro slot st
        constructor
        · intro h
          obtain ⟨a, ha, hf⟩ := List.mem_filterMap.mp h
          dsimp only at hf ⊢
          have hmem := List.mem_range'_1.mp ha
          cases hq : q a with
          | error e => rw [hq] at hf; simp at hf
          | ok v =>
            cases v with
            | none => rw [hq] at hf; simp at hf
            | some d =>
              rw [hq] at hf
              dsimp only at hf
              by_cases hd : d.userIdStatus ≠ 0
              · rw [if_pos hd] at hf
                simp only [Option.some.injEq, Prod.mk.injEq] at hf
                obtain ⟨hslot, hst⟩ := hf
                subst hslot
                exact ⟨hmem.1, hmem.2, hst ▸ hd, d, hq, hst⟩
              · rw [if_neg hd] at hf
                simp at hf
        · rintro ⟨h1, h2, hst, d, hq, hds⟩
          dsimp only at hq
          apply List.mem_filterMap.mpr
          refine ⟨slot, List.mem_range'_1.mpr ⟨h1, h2⟩, ?_⟩
          dsimp only
          rw [hq]
          simp [hds, hst]

/-- C8 witness: on the sample device reporting 3 slots, with slot 2 timing
out and slot 3 occupied, applying the theorem at that session. -/
theorem C8_witness :
    ((getUserCodes sessList).2 =
      DevCmd.getUsersCount :: (List.range' 1 (maxSlotsOf (some 3))).map DevCmd.getSlot) ∧
    (∃ l, (getUserCodes sessList).1 = ListCodesResult.ok l ∧
      ∀ slot st, (slot, st) ∈ l ↔
        (1 ≤ slot ∧ slot < 1 + maxSlotsOf (some 3) ∧ st ≠ 0 ∧
          ∃ d, sessList.query slot = Except.ok (some d) ∧ d.userIdStatus = st)) :=
  C8_getUserCodes_enumeration sessList (some 3) rfl rfl rfl

/-- C9: the listing operation returns only slot numbers and labels and its
output is unchanged under any rewriting of the stored pin blobs — it never
decrypts nor depends on the PIN material — while the targeted single-slot
getCode does decrypt the found record's secret and returns it. -/
theorem C9_listing_independent_of_pins :
    (∀ (st : CodeStorage) (f : UserCode → List Nat),
      getAllCodes (some (some ⟨st.codes.map (fun c => ⟨c.slot, c.name, f c⟩)⟩)) =
        getAllCodes (some (some st))) ∧
    (∀ (key : Nat) (st : CodeStorage) (slot : Nat) (c : UserCode),
      st.codes.find? (fun c0 => c0.slot == slot) = some c →
      getCode key (some (some st)) slot = some (c.name, decrypt key c.pin)) := by
  constructor
  · intro st f
    show ((st.codes.map (fun c => (⟨c.slot, c.name, f c⟩ : UserCode))).map
        (fun code => (code.slot, code.name))) =
      st.codes.map (fun code => (code.slot, code.name))
    rw [List.map_map]
    rfl
  · intro key st slot c h
    have hload : loadStorage (some (some st)) = st := rfl
    simp only [getCode, hload, h, Option.map_some']

/-- C9 witness: erasing the pin blobs of the duplicate-store does not change
the listing, and getCode on slot 5 returns the decrypted secret, applying
the theorem at those inputs. -/
theorem C9_witness :
    getAllCodes (some (some ⟨stDup.codes.map (fun c => ⟨c.slot, c.name, []⟩)⟩)) =
      getAllCodes (some (some stDup)) ∧
    getCode 7 (some (some stDup)) 5 =
      some (("spare"), decrypt 7 (encrypt 7 iv0 (strBytes ("1111")))) :=
  ⟨C9_listing_independent_of_pins.1 stDup (fun _ => []),
   C9_listing_independent_of_pins.2 7 stDup 5
     ⟨5, ("spare"), encrypt 7 iv0 (strBytes ("1111"))⟩ rfl⟩

/-- C10: a missing store file and a store file whose contents fail to parse
are both read as the empty store: loadStorage yields the empty code list,
getAllCodes the empty listing, and getCode finds no slot — no read
operation fails on a missing or corrupt file. -/
theorem C10_missing_or_corrupt_store_reads_empty :
    loadStorage none = ⟨[]⟩ ∧ loadStorage (some none) = ⟨[]⟩ ∧
    getAllCodes none = [] ∧ getAllCodes (some none) = [] ∧
    (∀ (key slot : Nat), getCode key none slot = none ∧
      getCode key (some none) slot = none) :=
  ⟨rfl, rfl, rfl, rfl, fun _ _ => ⟨rfl, rfl⟩⟩
